import Mathlib

/-!
# Verification of the EV feature-derivation pipeline

A shallow embedding of `src/frontend/src/hooks/useFeatureCalculator.js`:
the `DataBuffer` class, the smoothing helper `ema`, the categorisation
helpers, the elevation-resolution routine `getElevation`, and the main
per-tick routine `calculateFeatures` (`process()` in the specification).

Modelling conventions:
* JavaScript numbers are modelled as exact rationals (`ℚ`).  NaN and the
  infinities have no rational counterpart, so every division the source
  performs is modelled by the checked division `jdiv`, which fails
  (returns `none`) exactly when the denominator is zero — the one way a
  division can produce NaN/Infinity from finite operands.  A `process()`
  call therefore returns `Option (FeatureVector × PipelineState)`, and
  "no field is ever NaN/Infinity" becomes "the result is always `some`".
* `Math.sqrt` appears only in `getStats`, applied to the population
  variance.  The square root of a rational is irrational in general, so
  the buffer statistics carry the *square* of the standard deviation
  (`stdSq`); the source's `std` is its (monotone, well-defined) square
  root, which is finite exactly when `stdSq` is a rational `≥ 0`.
* `haversineDistance` (lines 54-63) is built from `sin`, `cos`, `atan2`
  and `sqrt`, which have no exact rational evaluation; the pipeline is
  parametrised by a function `hav : ℚ → ℚ → ℚ → ℚ → ℚ` standing for it.
  The genuine haversine is nonnegative (it is `R·c` with
  `c = 2·atan2(√a, √(1-a)) ∈ [0, π]`); theorems that need this take it
  as a hypothesis on `hav`.
* The external elevation fetch (`fetchElevation`, which resolves to the
  API value or to `null` on HTTP error or 3 s abort) is modelled by an
  `Option ℚ` input per tick: `some v` for a successful lookup, `none`
  for failure/timeout.
* JavaScript truthiness tests on numbers (`lastPoint.latitude &&
  lastPoint.longitude`, `gpsAltitude || 0`) are modelled as `≠ 0` tests,
  NaN being absent from the model.
-/

/-- Checked division: JavaScript division of finite operands yields a
finite number exactly when the denominator is nonzero (`0/0` is NaN,
`x/0` is ±Infinity). -/
def jdiv (a b : ℚ) : Option ℚ := if b = 0 then none else some (a / b)

/-- Exponential moving average, lines 132-135:
`ema(newValue, prevEma, alpha)` returns `newValue` when `prevEma` is
null/undefined and `alpha * newValue + (1 - alpha) * prevEma` otherwise. -/
def ema (newValue : ℚ) (prevEma : Option ℚ) (alpha : ℚ) : ℚ :=
  match prevEma with
  | none => newValue
  | some p => alpha * newValue + (1 - alpha) * p

/-- Speed regime category, lines 100-105. -/
def getSpeedRegime (speed : ℚ) : ℚ :=
  if speed < 30 then 0 else if speed < 60 then 1 else if speed < 90 then 2 else 3

/-- Slope category, lines 110-116. -/
def getSlopeCategory (slope : ℚ) : ℚ :=
  if slope < -5 then 0 else if slope < -2 then 1
  else if slope ≤ 2 then 2 else if slope ≤ 5 then 3 else 4

/-- Temperature category, lines 121-127. -/
def getTempCategory (temp : ℚ) : ℚ :=
  if temp < 0 then 0 else if temp < 10 then 1
  else if temp < 20 then 2 else if temp < 30 then 3 else 4

/-- One buffered data point, the object pushed at lines 321-331
(the spec's DerivedSample). -/
structure Point where
  timestamp : ℚ
  speed : ℚ
  acceleration : ℚ
  slope : ℚ
  elevation : ℚ
  soc : ℚ
  latitude : ℚ
  longitude : ℚ
  distanceM : ℚ
  deriving DecidableEq, Repr

/-- Result of `DataBuffer.getStats` (lines 30-35).  `stdSq` is the square
of the source's `std` field (see the header comment). -/
structure WindowStats where
  mean : ℚ
  stdSq : ℚ
  max : ℚ
  min : ℚ
  deriving DecidableEq, Repr

/-- The rolling-history buffer class of lines 8-49 (the spec's
SampleBuffer). -/
structure DataBuffer where
  maxSize : Nat
  data : List Point
  deriving DecidableEq, Repr

/-- Method `add(point)`, lines 14-19: push, then `shift()` (drop the head) if
the length exceeds `maxSize`. -/
def DataBuffer.add (b : DataBuffer) (point : Point) : DataBuffer :=
  let d := b.data ++ [point]
  { b with data := if b.maxSize < d.length then d.tail else d }

/-- Iterated `add`, modelling a whole sequence of insertions. -/
def DataBuffer.addAll (b : DataBuffer) (xs : List Point) : DataBuffer :=
  xs.foldl DataBuffer.add b

/-- Method `getLast()`, lines 38-40: the most recent entry, or null. -/
def DataBuffer.getLast (b : DataBuffer) : Option Point := b.data.getLast?

/-- JavaScript `arr.slice(-w)`: the last `w` elements — except that
`w = 0` gives `arr.slice(-0) = arr.slice(0)`, the whole array. -/
def jsSlice {α : Type} (l : List α) (w : Nat) : List α :=
  if w = 0 then l else l.drop (l.length - w)

/-- Model of `Math.max(...values)` for the nonempty `values` of `getStats`
(the empty case is unreachable there; `0` is a placeholder for JS's
`-Infinity`). -/
def listMax : List ℚ → ℚ
  | [] => 0
  | v :: vs => vs.foldl max v

/-- Model of `Math.min(...values)` for nonempty `values`, as `listMax`. -/
def listMin : List ℚ → ℚ
  | [] => 0
  | v :: vs => vs.foldl min v

/-- Method `getStats(key, window)`, lines 21-36.  `key` models the field access
`d[key]` (`none` = the field is undefined; the NaN filter is vacuous over
rationals); the filter keeps defined values.  Empty filtered set returns
all-zero stats; otherwise `mean = sum / N` and the variance divides by
`N` (population), guarded by `length > 1` with `std = 0` for a single
value. -/
def DataBuffer.getStats (b : DataBuffer) (key : Point → Option ℚ) (w : Nat) :
    Option WindowStats := do
  let values := (jsSlice b.data w).filterMap key
  if values.length = 0 then pure ⟨0, 0, 0, 0⟩
  else do
    let mean ← jdiv (values.foldl (· + ·) 0) (values.length : ℚ)
    let stdSq ←
      if 1 < values.length then
        jdiv ((values.map (fun v => (v - mean) ^ 2)).foldl (· + ·) 0) (values.length : ℚ)
      else pure 0
    pure ⟨mean, stdSq, listMax values, listMin values⟩

/-- The raw sample consumed by one `calculateFeatures` call, after the
destructuring defaults of lines 260-268 (the spec's RawSample).
`gpsAltitude` is nullable; the other fields are required finite
numbers. -/
structure Sample where
  speed : ℚ
  latitude : ℚ
  longitude : ℚ
  gpsAltitude : Option ℚ
  timestamp : ℚ
  soc : ℚ
  ambientTemp : ℚ
  deriving DecidableEq, Repr

/-- The diagnostic source tag returned by `getElevation`
(strings 'cache', 'pending', 'api', 'gps', 'last', 'default'). -/
inductive ElevSource where
  | cache
  | pending
  | api
  | gps
  | last
  | default
  deriving DecidableEq, Repr

/-- The coordinate bucket of line 209:
`latitude.toFixed(4) + ',' + longitude.toFixed(4)`, i.e. both
coordinates rounded to 4 decimal places. -/
def cacheKey (lat lon : ℚ) : ℤ × ℤ := (round (lat * 10000), round (lon * 10000))

/-- Lookup in the insertion-ordered elevation cache (a JS `Map`). -/
def cacheFind (c : List ((ℤ × ℤ) × ℚ)) (k : ℤ × ℤ) : Option ℚ :=
  (c.find? (fun e => decide (e.1 = k))).map (·.2)

/-- Model of `Map.set`: update in place if present, else append (insertion
order). -/
def cacheSet (c : List ((ℤ × ℤ) × ℚ)) (k : ℤ × ℤ) (v : ℚ) : List ((ℤ × ℤ) × ℚ) :=
  if c.any (fun e => decide (e.1 = k)) then
    c.map (fun e => if e.1 = k then (k, v) else e)
  else c ++ [(k, v)]

/-- Lines 232-235: if the cache exceeds 200 entries, delete the
first-inserted key. -/
def cacheEvict (c : List ((ℤ × ℤ) × ℚ)) : List ((ℤ × ℤ) × ℚ) :=
  if 200 < c.length then c.tail else c

/-- Model of `gpsAltitude || 0`, line 221: JS truthiness — `0`, `null` and
`undefined` all give `0`. -/
def jsOrZero (x : Option ℚ) : ℚ :=
  match x with
  | some v => if v = 0 then 0 else v
  | none => 0

/-- Result of one `getElevation` call: the resolved elevation, the
source tag, whether an external fetch was issued this call, and the
updated cache / pending flag. -/
structure ElevResult where
  elevation : ℚ
  source : ElevSource
  issuedLookup : Bool
  cache : List ((ℤ × ℤ) × ℚ)
  pending : Bool
  deriving DecidableEq, Repr

/-- Routine `getElevation(latitude, longitude, gpsAltitude)`, lines 207-250.
`lookup` is the outcome of `fetchElevation` if one is issued (`none` =
HTTP error or 3 s abort).  Cache hit returns the cached value; an
in-flight lookup (`pending`) reuses the last known elevation, else
`gpsAltitude || 0`, issuing no fetch; otherwise a fetch is issued —
success caches and returns the API value, failure falls back to the
sample's GPS altitude, then the last known elevation, then 0. -/
def getElevationM (cache : List ((ℤ × ℤ) × ℚ)) (pending : Bool)
    (lastElevation : Option ℚ) (latitude longitude : ℚ)
    (gpsAltitude : Option ℚ) (lookup : Option ℚ) : ElevResult :=
  let key := cacheKey latitude longitude
  match cacheFind cache key with
  | some v => ⟨v, .cache, false, cache, pending⟩
  | none =>
    if pending then
      match lastElevation with
      | some e => ⟨e, .pending, false, cache, pending⟩
      | none => ⟨jsOrZero gpsAltitude, .gps, false, cache, pending⟩
    else
      match lookup with
      | some v => ⟨v, .api, true, cacheEvict (cacheSet cache key v), false⟩
      | none =>
        match gpsAltitude with
        | some g => ⟨g, .gps, true, cache, false⟩
        | none =>
          match lastElevation with
          | some e => ⟨e, .last, true, cache, false⟩
          | none => ⟨0, .default, true, cache, false⟩

/-- The 36-field feature vector assembled at lines 357-407.  The two
rolling standard deviations are carried squared (see header). -/
structure FeatureVector where
  speed_kmh : ℚ
  speed2 : ℚ
  speed3 : ℚ
  acceleration : ℚ
  slope : ℚ
  slope_abs : ℚ
  elevation_diff : ℚ
  VCFRONT_tempAmbient : ℚ
  temp_range : ℚ
  SOCave292 : ℚ
  soc_delta : ℚ
  speed_x_slope : ℚ
  speed2_x_slope : ℚ
  speed_x_slope_abs : ℚ
  accel_x_speed : ℚ
  accel_x_speed2 : ℚ
  total_effort : ℚ
  speed_roll_mean_10 : ℚ
  speed_roll_std_10_sq : ℚ
  speed_roll_max_10 : ℚ
  speed_roll_min_10 : ℚ
  accel_roll_mean_5 : ℚ
  accel_roll_std_5_sq : ℚ
  slope_roll_mean_20 : ℚ
  is_accelerating : ℚ
  is_braking : ℚ
  is_coasting : ℚ
  regen_potential : ℚ
  cumul_elevation_gain : ℚ
  cumul_elevation_loss : ℚ
  time_since_stop : ℚ
  speed_regime : ℚ
  slope_category : ℚ
  temp_category : ℚ
  accel_per_speed : ℚ
  slope_per_speed : ℚ

/-- All per-trip mutable state of the hook: `bufferRef`,
`elevationCacheRef`, `pendingElevationRef`, `lastElevationRef`,
`smoothedSlopeRef` and `tripStateRef` (lines 151-164). -/
structure PipelineState where
  buffer : DataBuffer
  elevCache : List ((ℤ × ℤ) × ℚ)
  pendingElevation : Bool
  lastElevation : Option ℚ
  smoothedSlope : ℚ
  cumulElevationGain : ℚ
  cumulElevationLoss : ℚ
  timeSinceStop : ℚ
  lastSoc : ℚ
  startTime : Option ℚ
  totalDistance : ℚ
  deriving DecidableEq, Repr

/-- Routine `reset(initialSoc)`, lines 179-202: empty buffer of capacity 30,
empty cache, no last elevation, smoothed slope 0, zeroed accumulators. -/
def resetState (initialSoc : ℚ) : PipelineState :=
  { buffer := ⟨30, []⟩
    elevCache := []
    pendingElevation := false
    lastElevation := none
    smoothedSlope := 0
    cumulElevationGain := 0
    cumulElevationLoss := 0
    timeSinceStop := 0
    lastSoc := initialSoc
    startTime := none
    totalDistance := 0 }

/-- Line 279: `dt = lastPoint ? max(0.1, min(10, ts - last.ts)) : 1`. -/
def dtCalc (lastPoint : Option Point) (timestamp : ℚ) : ℚ :=
  match lastPoint with
  | some lp => max 0.1 (min 10 (timestamp - lp.timestamp))
  | none => 1

/-- Lines 289-297: haversine distance capped at 50 m when the previous
point has truthy (nonzero) coordinates, else `speedMs * dt`. -/
def distanceCalc (hav : ℚ → ℚ → ℚ → ℚ → ℚ) (lastPoint : Option Point)
    (latitude longitude speedMs dt : ℚ) : ℚ :=
  match lastPoint with
  | some lp =>
    if lp.latitude ≠ 0 ∧ lp.longitude ≠ 0 then
      min (hav lp.latitude lp.longitude latitude longitude) 50
    else speedMs * dt
  | none => speedMs * dt

/-- Lines 307-313: raw slope is `(elevationDiff / distanceM) * 100` when
`distanceM > 1.0` and `speed > 2`, else 0, then clamped to [-20, 20]. -/
def rawSlopeCalc (elevationDiff distanceM speed : ℚ) : Option ℚ := do
  let rawSlope ←
    if 1 < distanceM ∧ 2 < speed then do
      let q ← jdiv elevationDiff distanceM
      pure (q * 100)
    else pure 0
  pure (max (-20) (min 20 rawSlope))

/-- Total companion of `rawSlopeCalc` using Lean's total `ℚ` division;
`rawSlopeCalc_eq_total` proves they agree (the division is guarded by
`distanceM > 1`). -/
def rawSlopeT (elevationDiff distanceM speed : ℚ) : ℚ :=
  max (-20) (min 20 (if 1 < distanceM ∧ 2 < speed then elevationDiff / distanceM * 100 else 0))

/-- Total companion of `DataBuffer.getStats`; `getStats_eq_total` proves
they agree (both divisions are guarded by nonemptiness). -/
def getStatsT (b : DataBuffer) (key : Point → Option ℚ) (w : Nat) : WindowStats :=
  let values := (jsSlice b.data w).filterMap key
  if values.length = 0 then ⟨0, 0, 0, 0⟩
  else
    let mean := values.foldl (· + ·) 0 / (values.length : ℚ)
    let stdSq :=
      if 1 < values.length then
        (values.map (fun v => (v - mean) ^ 2)).foldl (· + ·) 0 / (values.length : ℚ)
      else 0
    ⟨mean, stdSq, listMax values, listMin values⟩

/-- Routine `calculateFeatures(sensorData)`, lines 255-423 — the spec's
`process()`.  `hav` stands for `haversineDistance` and `lookup` for the
tick's `fetchElevation` outcome (see header).  Returns `none` exactly
when some division the source performs has a zero denominator. -/
def processStep? (hav : ℚ → ℚ → ℚ → ℚ → ℚ) (st : PipelineState) (s : Sample)
    (lookup : Option ℚ) : Option (FeatureVector × PipelineState) := do
  let lastPoint := st.buffer.getLast
  let startTime := match st.startTime with | some t => t | none => s.timestamp
  let er := getElevationM st.elevCache st.pendingElevation st.lastElevation
    s.latitude s.longitude s.gpsAltitude lookup
  let elevation := er.elevation
  let dt := dtCalc lastPoint s.timestamp
  let speedMs ← jdiv s.speed 3.6
  let prevSpeedMs ← match lastPoint with
    | some lp => jdiv lp.speed 3.6
    | none => pure speedMs
  let rawAcceleration ← jdiv (speedMs - prevSpeedMs) dt
  let acceleration := max (-5) (min 5 rawAcceleration)
  let distanceM := distanceCalc hav lastPoint s.latitude s.longitude speedMs dt
  let totalDistance := st.totalDistance + distanceM
  let prevElevation := match st.lastElevation with | some e => e | none => elevation
  let elevationDiff := elevation - prevElevation
  let slope0 ← rawSlopeCalc elevationDiff distanceM s.speed
  let smoothedSlope := ema slope0 (some st.smoothedSlope) 0.15
  let slope := smoothedSlope
  let buffer := st.buffer.add
    ⟨s.timestamp, s.speed, acceleration, slope, elevation, s.soc,
      s.latitude, s.longitude, distanceM⟩
  let speedStats10 ← buffer.getStats (fun p => some p.speed) 10
  let accelStats5 ← buffer.getStats (fun p => some p.acceleration) 5
  let slopeStats20 ← buffer.getStats (fun p => some p.slope) 20
  let gainLoss :=
    if 0.3 < elevationDiff then
      (st.cumulElevationGain + elevationDiff, st.cumulElevationLoss)
    else if elevationDiff < -0.3 then
      (st.cumulElevationGain, st.cumulElevationLoss + |elevationDiff|)
    else (st.cumulElevationGain, st.cumulElevationLoss)
  let timeSinceStop := if s.speed < 1 then 0 else st.timeSinceStop + 1
  let socDelta := s.soc - st.lastSoc
  let accelPerSpeed ← jdiv acceleration (s.speed + 1)
  let slopePerSpeed ← jdiv slope (s.speed + 1)
  let fv : FeatureVector :=
    { speed_kmh := s.speed
      speed2 := s.speed ^ 2
      speed3 := s.speed ^ 3
      acceleration := acceleration
      slope := slope
      slope_abs := |slope|
      elevation_diff := elevationDiff
      VCFRONT_tempAmbient := s.ambientTemp
      temp_range := 3
      SOCave292 := s.soc
      soc_delta := socDelta
      speed_x_slope := s.speed * slope
      speed2_x_slope := s.speed ^ 2 * slope
      speed_x_slope_abs := s.speed * |slope|
      accel_x_speed := acceleration * s.speed
      accel_x_speed2 := acceleration * s.speed ^ 2
      total_effort := s.speed + |slope| * 10 + |acceleration| * 5
      speed_roll_mean_10 := speedStats10.mean
      speed_roll_std_10_sq := speedStats10.stdSq
      speed_roll_max_10 := speedStats10.max
      speed_roll_min_10 := speedStats10.min
      accel_roll_mean_5 := accelStats5.mean
      accel_roll_std_5_sq := accelStats5.stdSq
      slope_roll_mean_20 := slopeStats20.mean
      is_accelerating := if 0.1 < acceleration then 1 else 0
      is_braking := if acceleration < -0.1 then 1 else 0
      is_coasting := if |acceleration| < 0.1 ∧ 5 < s.speed then 1 else 0
      regen_potential := if slope < -2 ∧ 30 < s.speed then 1 else 0
      cumul_elevation_gain := gainLoss.1
      cumul_elevation_loss := gainLoss.2
      time_since_stop := timeSinceStop
      speed_regime := getSpeedRegime s.speed
      slope_category := getSlopeCategory slope
      temp_category := getTempCategory s.ambientTemp
      accel_per_speed := accelPerSpeed
      slope_per_speed := slopePerSpeed }
  let st' : PipelineState :=
    { buffer := buffer
      elevCache := er.cache
      pendingElevation := er.pending
      lastElevation := some elevation
      smoothedSlope := smoothedSlope
      cumulElevationGain := gainLoss.1
      cumulElevationLoss := gainLoss.2
      timeSinceStop := timeSinceStop
      lastSoc := s.soc
      startTime := some startTime
      totalDistance := totalDistance }
  pure (fv, st')

/-- Total companion of `processStep?`, identical except that every
checked division is Lean's total `ℚ` division.  `processStep?_eq_some`
proves that whenever the sample's speed is not `-1` (in particular for
every well-typed sample, whose speed is `≥ 0`), `processStep?` succeeds
and returns exactly this value. -/
def processStep (hav : ℚ → ℚ → ℚ → ℚ → ℚ) (st : PipelineState) (s : Sample)
    (lookup : Option ℚ) : FeatureVector × PipelineState :=
  let lastPoint := st.buffer.getLast
  let startTime := match st.startTime with | some t => t | none => s.timestamp
  let er := getElevationM st.elevCache st.pendingElevation st.lastElevation
    s.latitude s.longitude s.gpsAltitude lookup
  let elevation := er.elevation
  let dt := dtCalc lastPoint s.timestamp
  let speedMs := s.speed / 3.6
  let prevSpeedMs := match lastPoint with
    | some lp => lp.speed / 3.6
    | none => speedMs
  let rawAcceleration := (speedMs - prevSpeedMs) / dt
  let acceleration := max (-5) (min 5 rawAcceleration)
  let distanceM := distanceCalc hav lastPoint s.latitude s.longitude speedMs dt
  let totalDistance := st.totalDistance + distanceM
  let prevElevation := match st.lastElevation with | some e => e | none => elevation
  let elevationDiff := elevation - prevElevation
  let slope0 := rawSlopeT elevationDiff distanceM s.speed
  let smoothedSlope := ema slope0 (some st.smoothedSlope) 0.15
  let slope := smoothedSlope
  let buffer := st.buffer.add
    ⟨s.timestamp, s.speed, acceleration, slope, elevation, s.soc,
      s.latitude, s.longitude, distanceM⟩
  let speedStats10 := getStatsT buffer (fun p => some p.speed) 10
  let accelStats5 := getStatsT buffer (fun p => some p.acceleration) 5
  let slopeStats20 := getStatsT buffer (fun p => some p.slope) 20
  let gainLoss :=
    if 0.3 < elevationDiff then
      (st.cumulElevationGain + elevationDiff, st.cumulElevationLoss)
    else if elevationDiff < -0.3 then
      (st.cumulElevationGain, st.cumulElevationLoss + |elevationDiff|)
    else (st.cumulElevationGain, st.cumulElevationLoss)
  let timeSinceStop := if s.speed < 1 then 0 else st.timeSinceStop + 1
  let socDelta := s.soc - st.lastSoc
  let accelPerSpeed := acceleration / (s.speed + 1)
  let slopePerSpeed := slope / (s.speed + 1)
  let fv : FeatureVector :=
    { speed_kmh := s.speed
      speed2 := s.speed ^ 2
      speed3 := s.speed ^ 3
      acceleration := acceleration
      slope := slope
      slope_abs := |slope|
      elevation_diff := elevationDiff
      VCFRONT_tempAmbient := s.ambientTemp
      temp_range := 3
      SOCave292 := s.soc
      soc_delta := socDelta
      speed_x_slope := s.speed * slope
      speed2_x_slope := s.speed ^ 2 * slope
      speed_x_slope_abs := s.speed * |slope|
      accel_x_speed := acceleration * s.speed
      accel_x_speed2 := acceleration * s.speed ^ 2
      total_effort := s.speed + |slope| * 10 + |acceleration| * 5
      speed_roll_mean_10 := speedStats10.mean
      speed_roll_std_10_sq := speedStats10.stdSq
      speed_roll_max_10 := speedStats10.max
      speed_roll_min_10 := speedStats10.min
      accel_roll_mean_5 := accelStats5.mean
      accel_roll_std_5_sq := accelStats5.stdSq
      slope_roll_mean_20 := slopeStats20.mean
      is_accelerating := if 0.1 < acceleration then 1 else 0
      is_braking := if acceleration < -0.1 then 1 else 0
      is_coasting := if |acceleration| < 0.1 ∧ 5 < s.speed then 1 else 0
      regen_potential := if slope < -2 ∧ 30 < s.speed then 1 else 0
      cumul_elevation_gain := gainLoss.1
      cumul_elevation_loss := gainLoss.2
      time_since_stop := timeSinceStop
      speed_regime := getSpeedRegime s.speed
      slope_category := getSlopeCategory slope
      temp_category := getTempCategory s.ambientTemp
      accel_per_speed := accelPerSpeed
      slope_per_speed := slopePerSpeed }
  let st' : PipelineState :=
    { buffer := buffer
      elevCache := er.cache
      pendingElevation := er.pending
      lastElevation := some elevation
      smoothedSlope := smoothedSlope
      cumulElevationGain := gainLoss.1
      cumulElevationLoss := gainLoss.2
      timeSinceStop := timeSinceStop
      lastSoc := s.soc
      startTime := some startTime
      totalDistance := totalDistance }
  (fv, st')

/-- A whole trip: `process()` applied in order to a list of
(sample, lookup outcome) pairs, collecting the produced feature
vectors. -/
def processAll? (hav : ℚ → ℚ → ℚ → ℚ → ℚ) (st : PipelineState) :
    List (Sample × Option ℚ) → Option (PipelineState × List FeatureVector)
  | [] => pure (st, [])
  | (s, lk) :: rest => do
    let r ← processStep? hav st s lk
    let rec' ← processAll? hav r.2 rest
    pure (rec'.1, r.1 :: rec'.2)

/-- The smoothed-slope sequence produced by feeding a constant raw slope
`s` into the source's `ema` with α = 0.15, starting from the reset value
`smoothedSlopeRef.current = 0` (lines 154 and 317). -/
def emaIter (s : ℚ) : Nat → ℚ
  | 0 => 0
  | n + 1 => ema s (some (emaIter s n)) 0.15

/-- The elevation `process()` resolves for sample `s` in state `st`
(shorthand for the `getElevation` result used at line 276). -/
def elevOf (st : PipelineState) (s : Sample) (lk : Option ℚ) : ℚ :=
  (getElevationM st.elevCache st.pendingElevation st.lastElevation
    s.latitude s.longitude s.gpsAltitude lk).elevation

/-- The per-tick elevation delta of line 303: resolved elevation minus
the last known elevation (or itself, on the first resolution). -/
def elevDiffOf (st : PipelineState) (s : Sample) (lk : Option ℚ) : ℚ :=
  elevOf st s lk - (match st.lastElevation with | some e => e | none => elevOf st s lk)

/-- A constant stand-in for the haversine function, for concrete runs. -/
def havConst (c : ℚ) : ℚ → ℚ → ℚ → ℚ → ℚ := fun _ _ _ _ => c

/-- A sample with the given speed and timestamp at a fixed position,
with an on-device altitude of 100 m (used for concrete runs). -/
def constSpeedSample (v t : ℚ) : Sample := ⟨v, 45, 7, some 100, t, 80, 15⟩

/-- Five consecutive 1 Hz ticks at 5 km/h (elevation lookups failing,
GPS altitude constant). -/
def fiveTicks : List (Sample × Option ℚ) :=
  [(constSpeedSample 5 0, none), (constSpeedSample 5 1, none), (constSpeedSample 5 2, none),
   (constSpeedSample 5 3, none), (constSpeedSample 5 4, none)]

/-- A trivial buffered point whose timestamp is `n` (for concrete
buffer runs). -/
def mkPt (n : Nat) : Point := ⟨(n : ℚ), 0, 0, 0, 0, 0, 0, 0, 0⟩

/-- A fresh trip state whose last known elevation is 100 m (for
concrete elevation-delta runs). -/
def stElev100 : PipelineState := { resetState 80 with lastElevation := some 100 }

/-- A moving sample whose on-device altitude is 100.5 m (elevation
lookups failing, so the resolved elevation is 100.5 m). -/
def sampleUp05 : Sample := ⟨10, 45, 7, some 100.5, 0, 80, 15⟩

/-- A moving sample whose on-device altitude is 100.2 m. -/
def sampleUp02 : Sample := ⟨10, 45, 7, some 100.2, 0, 80, 15⟩

/-- A previously buffered point on the equator (latitude 0, a perfectly
valid position, but falsy to JavaScript). -/
def ptEquator : Point := ⟨0, 0, 0, 0, 0, 80, 0, 10, 0⟩

/-- A trip state whose buffer holds `ptEquator`. -/
def stEquator : PipelineState :=
  { resetState 80 with buffer := ⟨30, [ptEquator]⟩, lastElevation := some 0 }

/-- A stationary sample about 10 km north of `ptEquator` (latitude
0.09°, same longitude), one second later. -/
def sEquator : Sample := ⟨0, 9/100, 10, some 0, 1, 80, 15⟩

/-- A previously buffered point at 45°N 7°E (truthy coordinates). -/
def ptTruthy : Point := ⟨0, 0, 0, 0, 0, 80, 45, 7, 0⟩

/-- A trip state whose buffer holds `ptTruthy`. -/
def stTruthy : PipelineState :=
  { resetState 80 with buffer := ⟨30, [ptTruthy]⟩, lastElevation := some 0 }

/-- A stationary sample one second after `ptTruthy`. -/
def sAfterTruthy : Sample := ⟨0, 45, 7, some 0, 1, 80, 15⟩

/-- A buffered point whose speed is 7 km/h (for window-stats runs). -/
def ptSpeed7 : Point := ⟨0, 7, 0, 0, 0, 80, 45, 7, 0⟩

/-- Modelled from the spec's description of `windowStats`: the set the
statistics are computed from — the field values present among the `w`
most recent entries (all entries if fewer are present). -/
def windowValues (b : DataBuffer) (key : Point → Option ℚ) (w : Nat) : List ℚ :=
  (b.data.drop (b.data.length - w)).filterMap key

/-! ## General lemmas about the embedding -/

theorem jdiv_some {a b : ℚ} (h : b ≠ 0) : jdiv a b = some (a / b) := by
  simp [jdiv, h]

theorem dtCalc_pos (lp : Option Point) (ts : ℚ) : 0 < dtCalc lp ts := by
  cases lp with
  | none => norm_num [dtCalc]
  | some p =>
    have h1 : (0.1 : ℚ) ≤ dtCalc (some p) ts := le_max_left _ _
    linarith

theorem rawSlopeCalc_eq_total (d dist sp : ℚ) :
    rawSlopeCalc d dist sp = some (rawSlopeT d dist sp) := by
  unfold rawSlopeCalc rawSlopeT
  by_cases h : 1 < dist ∧ 2 < sp
  · have hne : dist ≠ 0 := by
      have : (0 : ℚ) < dist := lt_trans one_pos h.1
      exact this.ne'
    simp [h, jdiv_some hne]
  · simp [h]

theorem getStats_eq_total (b : DataBuffer) (key : Point → Option ℚ) (w : Nat) :
    b.getStats key w = some (getStatsT b key w) := by
  unfold DataBuffer.getStats getStatsT
  by_cases h : ((jsSlice b.data w).filterMap key).length = 0
  · simp [h]
  · have hne : ((((jsSlice b.data w).filterMap key).length : ℚ)) ≠ 0 := Nat.cast_ne_zero.mpr h
    by_cases h1 : 1 < ((jsSlice b.data w).filterMap key).length
    · simp [h, h1, jdiv_some hne]
    · simp [h, h1, jdiv_some hne]

theorem processStep?_eq_some (hav : ℚ → ℚ → ℚ → ℚ → ℚ) (st : PipelineState) (s : Sample)
    (lk : Option ℚ) (h : s.speed + 1 ≠ 0) :
    processStep? hav st s lk = some (processStep hav st s lk) := by
  have h36 : (3.6 : ℚ) ≠ 0 := by norm_num
  unfold processStep? processStep
  cases hlp : st.buffer.getLast with
  | none =>
    have hdt : dtCalc (none : Option Point) s.timestamp ≠ 0 := (dtCalc_pos _ _).ne'
    simp [hlp, jdiv_some h36, jdiv_some hdt, jdiv_some h, rawSlopeCalc_eq_total,
      getStats_eq_total]
    norm_num
  | some lp =>
    have hdt : dtCalc (some lp) s.timestamp ≠ 0 := (dtCalc_pos _ _).ne'
    simp [hlp, jdiv_some h36, jdiv_some hdt, jdiv_some h, rawSlopeCalc_eq_total,
      getStats_eq_total]

theorem processStep?_eq_none (hav : ℚ → ℚ → ℚ → ℚ → ℚ) (st : PipelineState) (s : Sample)
    (lk : Option ℚ) (h : s.speed + 1 = 0) :
    processStep? hav st s lk = none := by
  have h36 : (3.6 : ℚ) ≠ 0 := by norm_num
  unfold processStep?
  cases hlp : st.buffer.getLast with
  | none =>
    have hdt : dtCalc (none : Option Point) s.timestamp ≠ 0 := (dtCalc_pos _ _).ne'
    simp [hlp, jdiv_some h36, jdiv_some hdt, rawSlopeCalc_eq_total, getStats_eq_total,
      jdiv, h]
  | some lp =>
    have hdt : dtCalc (some lp) s.timestamp ≠ 0 := (dtCalc_pos _ _).ne'
    simp [hlp, jdiv_some h36, jdiv_some hdt, rawSlopeCalc_eq_total, getStats_eq_total,
      jdiv, h]

theorem processStep?_inv {hav : ℚ → ℚ → ℚ → ℚ → ℚ} {st : PipelineState} {s : Sample}
    {lk : Option ℚ} {r : FeatureVector × PipelineState}
    (h : processStep? hav st s lk = some r) :
    s.speed + 1 ≠ 0 ∧ r = processStep hav st s lk := by
  by_cases hs : s.speed + 1 = 0
  · rw [processStep?_eq_none hav st s lk hs] at h
    exact absurd h (by simp)
  · refine ⟨hs, ?_⟩
    rw [processStep?_eq_some hav st s lk hs] at h
    exact (Option.some_inj.mp h).symm

theorem processStep_snd_timeSinceStop (hav : ℚ → ℚ → ℚ → ℚ → ℚ) (st : PipelineState)
    (s : Sample) (lk : Option ℚ) :
    (processStep hav st s lk).2.timeSinceStop =
      if s.speed < 1 then 0 else st.timeSinceStop + 1 := by
  simp [processStep]

theorem processStep_fst_time_since_stop (hav : ℚ → ℚ → ℚ → ℚ → ℚ) (st : PipelineState)
    (s : Sample) (lk : Option ℚ) :
    (processStep hav st s lk).1.time_since_stop =
      if s.speed < 1 then 0 else st.timeSinceStop + 1 := by
  simp [processStep]

theorem processStep_fst_elevation_diff (hav : ℚ → ℚ → ℚ → ℚ → ℚ) (st : PipelineState)
    (s : Sample) (lk : Option ℚ) :
    (processStep hav st s lk).1.elevation_diff = elevDiffOf st s lk := by
  simp [processStep, elevDiffOf, elevOf]

theorem processStep_snd_gain (hav : ℚ → ℚ → ℚ → ℚ → ℚ) (st : PipelineState)
    (s : Sample) (lk : Option ℚ) :
    (processStep hav st s lk).2.cumulElevationGain =
      if 0.3 < elevDiffOf st s lk then st.cumulElevationGain + elevDiffOf st s lk
      else st.cumulElevationGain := by
  simp only [processStep, elevDiffOf, elevOf]
  split_ifs <;> simp_all

theorem processStep_snd_loss (hav : ℚ → ℚ → ℚ → ℚ → ℚ) (st : PipelineState)
    (s : Sample) (lk : Option ℚ) :
    (processStep hav st s lk).2.cumulElevationLoss =
      if elevDiffOf st s lk < -0.3 then st.cumulElevationLoss + |elevDiffOf st s lk|
      else st.cumulElevationLoss := by
  simp only [processStep, elevDiffOf, elevOf]
  split_ifs with h1 h2 <;> first
    | rfl
    | (exfalso; linarith)

theorem processStep_snd_totalDistance (hav : ℚ → ℚ → ℚ → ℚ → ℚ) (st : PipelineState)
    (s : Sample) (lk : Option ℚ) :
    (processStep hav st s lk).2.totalDistance =
      st.totalDistance + distanceCalc hav st.buffer.getLast s.latitude s.longitude
        (s.speed / 3.6) (dtCalc st.buffer.getLast s.timestamp) := by
  simp [processStep]

theorem processStep_snd_smoothedSlope (hav : ℚ → ℚ → ℚ → ℚ → ℚ) (st : PipelineState)
    (s : Sample) (lk : Option ℚ) :
    (processStep hav st s lk).2.smoothedSlope =
      ema (rawSlopeT (elevDiffOf st s lk)
          (distanceCalc hav st.buffer.getLast s.latitude s.longitude
            (s.speed / 3.6) (dtCalc st.buffer.getLast s.timestamp)) s.speed)
        (some st.smoothedSlope) 0.15 := by
  simp [processStep, elevDiffOf, elevOf]

theorem processStep_fst_slope (hav : ℚ → ℚ → ℚ → ℚ → ℚ) (st : PipelineState)
    (s : Sample) (lk : Option ℚ) :
    (processStep hav st s lk).1.slope = (processStep hav st s lk).2.smoothedSlope := by
  simp [processStep]

theorem rawSlopeT_bounds (d m sp : ℚ) :
    -20 ≤ rawSlopeT d m sp ∧ rawSlopeT d m sp ≤ 20 :=
  ⟨le_max_left _ _, max_le (by norm_num) (min_le_left _ _)⟩

theorem rawSlopeT_zero (d m sp : ℚ) (h : ¬(1 < m ∧ 2 < sp)) : rawSlopeT d m sp = 0 := by
  rw [rawSlopeT, if_neg h]
  norm_num

theorem ema_bound {x p : ℚ} (hx : |x| ≤ 20) (hp : |p| ≤ 20) :
    |ema x (some p) 0.15| ≤ 20 := by
  simp only [ema]
  rw [abs_le] at *
  constructor <;> nlinarith [hx.1, hx.2, hp.1, hp.2]

theorem processStep_slope_le (hav : ℚ → ℚ → ℚ → ℚ → ℚ) (st : PipelineState)
    (s : Sample) (lk : Option ℚ) (h : |st.smoothedSlope| ≤ 20) :
    |(processStep hav st s lk).2.smoothedSlope| ≤ 20 := by
  rw [processStep_snd_smoothedSlope]
  refine ema_bound ?_ h
  rw [abs_le]
  exact rawSlopeT_bounds _ _ _

theorem processStep_reset_accel (hav : ℚ → ℚ → ℚ → ℚ → ℚ) (soc0 : ℚ) (s : Sample)
    (lk : Option ℚ) :
    (processStep hav (resetState soc0) s lk).1.acceleration = 0 ∧
    (processStep hav (resetState soc0) s lk).1.is_accelerating = 0 ∧
    (processStep hav (resetState soc0) s lk).1.is_braking = 0 := by
  simp [processStep, resetState, DataBuffer.getLast, dtCalc]
  norm_num

theorem processAll?_nil (hav : ℚ → ℚ → ℚ → ℚ → ℚ) (st : PipelineState) :
    processAll? hav st [] = some (st, []) := rfl

theorem processAll?_cons (hav : ℚ → ℚ → ℚ → ℚ → ℚ) (st : PipelineState) (s : Sample)
    (lk : Option ℚ) (rest : List (Sample × Option ℚ)) (hne : s.speed + 1 ≠ 0) :
    processAll? hav st ((s, lk) :: rest) =
      (processAll? hav (processStep hav st s lk).2 rest).map
        (fun p => (p.1, (processStep hav st s lk).1 :: p.2)) := by
  rw [processAll?, processStep?_eq_some hav st s lk hne]
  simp only [Option.bind_eq_bind, Option.some_bind]
  cases hr : processAll? hav (processStep hav st s lk).2 rest with
  | none => rfl
  | some p => rfl

theorem processAll?_inv {hav : ℚ → ℚ → ℚ → ℚ → ℚ} {st : PipelineState} {s : Sample}
    {lk : Option ℚ} {rest : List (Sample × Option ℚ)} {st' : PipelineState}
    {fvs : List FeatureVector}
    (h : processAll? hav st ((s, lk) :: rest) = some (st', fvs)) :
    ∃ fv₀ st₀ fvs₀, processStep? hav st s lk = some (fv₀, st₀) ∧
      processAll? hav st₀ rest = some (st', fvs₀) ∧ fvs = fv₀ :: fvs₀ := by
  rw [processAll?] at h
  simp only [Option.bind_eq_bind, Option.pure_def, Option.bind_eq_some,
    Option.some_inj] at h
  obtain ⟨r, hstep, p, hrest, hp⟩ := h
  refine ⟨r.1, r.2, p.2, by rw [hstep], ?_, ?_⟩
  · have h1 : p.1 = st' := by
      have := congrArg Prod.fst hp
      simpa using this
    rw [hrest, show st' = p.1 from h1.symm]
  · have := congrArg Prod.snd hp
    simpa using this.symm

/-- C9: on every `process()` call, speed below 1 km/h resets
`timeSinceStop` to 0 for that tick, and otherwise it is incremented by
exactly 1 — independent of the time delta `dt`, which does not occur in
the update; feeding 5 km/h for 5 consecutive ticks from the reset state
yields `timeSinceStop = 5`. -/
theorem timeSinceStop_tick_counted :
    (∀ (hav : ℚ → ℚ → ℚ → ℚ → ℚ) (st : PipelineState) (s : Sample) (lk : Option ℚ)
      (fv : FeatureVector) (st' : PipelineState),
      processStep? hav st s lk = some (fv, st') →
        (s.speed < 1 → st'.timeSinceStop = 0 ∧ fv.time_since_stop = 0) ∧
        (¬ s.speed < 1 → st'.timeSinceStop = st.timeSinceStop + 1 ∧
          fv.time_since_stop = st.timeSinceStop + 1)) ∧
    (processAll? (havConst 0) (resetState 80) fiveTicks).map
      (fun r => r.1.timeSinceStop) = some 5 := by
  constructor
  · intro hav st s lk fv st' h
    obtain ⟨hne, hr⟩ := processStep?_inv h
    have hst' : st' = (processStep hav st s lk).2 := by rw [← hr]
    have hfv : fv = (processStep hav st s lk).1 := by rw [← hr]
    rw [hst', hfv, processStep_snd_timeSinceStop, processStep_fst_time_since_stop]
    constructor
    · intro hlt
      rw [if_pos hlt]
      exact ⟨rfl, rfl⟩
    · intro hge
      rw [if_neg hge]
      exact ⟨rfl, rfl⟩
  · have hc : ∀ t : ℚ, (constSpeedSample 5 t).speed + 1 ≠ 0 := by
      intro t
      norm_num [constSpeedSample]
    simp only [fiveTicks]
    rw [processAll?_cons _ _ _ _ _ (hc 0), processAll?_cons _ _ _ _ _ (hc 1),
      processAll?_cons _ _ _ _ _ (hc 2), processAll?_cons _ _ _ _ _ (hc 3),
      processAll?_cons _ _ _ _ _ (hc 4), processAll?_nil]
    simp only [Option.map_some', Option.some_inj]
    simp only [processStep_snd_timeSinceStop, constSpeedSample]
    norm_num [resetState]

/-- C9 witness: a concrete stopped tick (speed 0) resets the counter. -/
theorem timeSinceStop_tick_counted_witness :
    (processStep (havConst 0) (resetState 80) (constSpeedSample 0 0) none).2.timeSinceStop
      = 0 := by
  have h := (timeSinceStop_tick_counted.1 (havConst 0) (resetState 80)
    (constSpeedSample 0 0) none _ _
    (processStep?_eq_some _ _ _ _ (by norm_num [constSpeedSample])))
  exact (h.1 (by norm_num [constSpeedSample])).1

/-- C10: on the first sample after `reset()` (empty buffer, so no
previous point), the previous speed defaults to the current speed and
`dt` to 1, making the acceleration field exactly 0 regardless of the
sample's speed; hence `is_accelerating` and `is_braking` are both 0. -/
theorem first_tick_zero_acceleration (hav : ℚ → ℚ → ℚ → ℚ → ℚ) (soc0 : ℚ) (s : Sample)
    (lk : Option ℚ) (h : 0 ≤ s.speed) :
    ∃ fv st', processStep? hav (resetState soc0) s lk = some (fv, st') ∧
      fv.acceleration = 0 ∧ fv.is_accelerating = 0 ∧ fv.is_braking = 0 := by
  have hne : s.speed + 1 ≠ 0 := by
    have : (0 : ℚ) < s.speed + 1 := by linarith
    exact this.ne'
  refine ⟨(processStep hav (resetState soc0) s lk).1,
    (processStep hav (resetState soc0) s lk).2, ?_,
    processStep_reset_accel hav soc0 s lk⟩
  rw [processStep?_eq_some _ _ _ _ hne]

/-- C10 witness: a first sample at 50 km/h still yields acceleration 0. -/
theorem first_tick_zero_acceleration_witness :
    (processStep? (havConst 0) (resetState 80) (constSpeedSample 50 0) none).map
      (fun r => r.1.acceleration) = some 0 := by
  obtain ⟨fv, st', heq, ha, _, _⟩ := first_tick_zero_acceleration (havConst 0) 80
    (constSpeedSample 50 0) none (by norm_num [constSpeedSample])
  rw [heq, Option.map_some', ha]

theorem processStep_gain_mono (hav : ℚ → ℚ → ℚ → ℚ → ℚ) (st : PipelineState)
    (s : Sample) (lk : Option ℚ) :
    st.cumulElevationGain ≤ (processStep hav st s lk).2.cumulElevationGain := by
  rw [processStep_snd_gain]
  split_ifs with h
  · linarith
  · exact le_refl _

theorem processStep_loss_mono (hav : ℚ → ℚ → ℚ → ℚ → ℚ) (st : PipelineState)
    (s : Sample) (lk : Option ℚ) :
    st.cumulElevationLoss ≤ (processStep hav st s lk).2.cumulElevationLoss := by
  rw [processStep_snd_loss]
  split_ifs with h
  · have := abs_nonneg (elevDiffOf st s lk)
    linarith
  · exact le_refl _

theorem distanceCalc_nonneg (hav : ℚ → ℚ → ℚ → ℚ → ℚ) (lp : Option Point)
    (lat lon speedMs dt : ℚ) (hhav : ∀ a b c d, 0 ≤ hav a b c d)
    (hs : 0 ≤ speedMs) (hdt : 0 ≤ dt) :
    0 ≤ distanceCalc hav lp lat lon speedMs dt := by
  cases lp with
  | none => exact mul_nonneg hs hdt
  | some p =>
    rw [distanceCalc]
    split_ifs with h
    · exact le_min (hhav _ _ _ _) (by norm_num)
    · exact mul_nonneg hs hdt

theorem processStep_totalDistance_mono (hav : ℚ → ℚ → ℚ → ℚ → ℚ) (st : PipelineState)
    (s : Sample) (lk : Option ℚ) (hhav : ∀ a b c d, 0 ≤ hav a b c d)
    (hs : 0 ≤ s.speed) :
    st.totalDistance ≤ (processStep hav st s lk).2.totalDistance := by
  rw [processStep_snd_totalDistance]
  have h1 : 0 ≤ s.speed / 3.6 := by positivity
  have h2 : (0 : ℚ) ≤ dtCalc st.buffer.getLast s.timestamp := (dtCalc_pos _ _).le
  have := distanceCalc_nonneg hav st.buffer.getLast s.latitude s.longitude
    (s.speed / 3.6) (dtCalc st.buffer.getLast s.timestamp) hhav h1 h2
  linarith

/-- C5: an elevation delta strictly above +0.3 m adds to the cumulative
gain (loss unchanged), one strictly below -0.3 m adds its magnitude to
the cumulative loss (gain unchanged), and deltas within ±0.3 m leave
both counters unchanged; consequently both counters — and the total
distance, for nonnegative speeds and a nonnegative haversine — are
monotonically non-decreasing across every sequence of `process()`
calls. -/
theorem elevation_accumulators_monotone :
    (∀ (hav : ℚ → ℚ → ℚ → ℚ → ℚ) (st : PipelineState) (s : Sample) (lk : Option ℚ)
      (fv : FeatureVector) (st' : PipelineState),
      processStep? hav st s lk = some (fv, st') →
        (0.3 < fv.elevation_diff →
          st'.cumulElevationGain = st.cumulElevationGain + fv.elevation_diff ∧
          st'.cumulElevationLoss = st.cumulElevationLoss) ∧
        (fv.elevation_diff < -0.3 →
          st'.cumulElevationLoss = st.cumulElevationLoss + |fv.elevation_diff| ∧
          st'.cumulElevationGain = st.cumulElevationGain) ∧
        (-0.3 ≤ fv.elevation_diff → fv.elevation_diff ≤ 0.3 →
          st'.cumulElevationGain = st.cumulElevationGain ∧
          st'.cumulElevationLoss = st.cumulElevationLoss) ∧
        st.cumulElevationGain ≤ st'.cumulElevationGain ∧
        st.cumulElevationLoss ≤ st'.cumulElevationLoss) ∧
    (∀ (hav : ℚ → ℚ → ℚ → ℚ → ℚ) (st : PipelineState)
      (inputs : List (Sample × Option ℚ)) (st' : PipelineState)
      (fvs : List FeatureVector),
      processAll? hav st inputs = some (st', fvs) →
      (∀ p ∈ inputs, 0 ≤ p.1.speed) →
      (∀ a b c d, 0 ≤ hav a b c d) →
        st.cumulElevationGain ≤ st'.cumulElevationGain ∧
        st.cumulElevationLoss ≤ st'.cumulElevationLoss ∧
        st.totalDistance ≤ st'.totalDistance) := by
  constructor
  · intro hav st s lk fv st' h
    obtain ⟨hne, hr⟩ := processStep?_inv h
    have hst' : st' = (processStep hav st s lk).2 := by rw [← hr]
    have hfv : fv = (processStep hav st s lk).1 := by rw [← hr]
    rw [hst', hfv, processStep_fst_elevation_diff]
    refine ⟨?_, ?_, ?_, processStep_gain_mono hav st s lk,
      processStep_loss_mono hav st s lk⟩
    · intro hgt
      rw [processStep_snd_gain, if_pos hgt, processStep_snd_loss,
        if_neg (by linarith : ¬ elevDiffOf st s lk < -0.3)]
      exact ⟨rfl, rfl⟩
    · intro hlt
      rw [processStep_snd_loss, if_pos hlt, processStep_snd_gain,
        if_neg (by linarith : ¬ (0.3 : ℚ) < elevDiffOf st s lk)]
      exact ⟨rfl, rfl⟩
    · intro hge hle
      rw [processStep_snd_gain, if_neg (by linarith : ¬ (0.3 : ℚ) < elevDiffOf st s lk),
        processStep_snd_loss, if_neg (by linarith : ¬ elevDiffOf st s lk < -0.3)]
      exact ⟨rfl, rfl⟩
  · intro hav st inputs
    induction inputs generalizing st with
    | nil =>
      intro st' fvs h _ _
      rw [processAll?_nil, Option.some_inj] at h
      injection h with h1 h2
      subst h1
      exact ⟨le_refl _, le_refl _, le_refl _⟩
    | cons p rest ih =>
      intro st' fvs h hsp hhav
      obtain ⟨fv₀, st₀, fvs₀, hstep, hrest, _⟩ := processAll?_inv h
      obtain ⟨hne, hr⟩ := processStep?_inv hstep
      have hst₀ : st₀ = (processStep hav st p.1 p.2).2 := by rw [← hr]
      have hmid := ih st₀ st' fvs₀ hrest (fun q hq => hsp q (List.mem_cons_of_mem _ hq)) hhav
      have hsp0 : 0 ≤ p.1.speed := hsp p (List.mem_cons_self _ _)
      refine ⟨le_trans ?_ hmid.1, le_trans ?_ hmid.2.1, le_trans ?_ hmid.2.2⟩
      · rw [hst₀]
        exact processStep_gain_mono hav st p.1 p.2
      · rw [hst₀]
        exact processStep_loss_mono hav st p.1 p.2
      · rw [hst₀]
        exact processStep_totalDistance_mono hav st p.1 p.2 hhav hsp0

/-- C5 witness: from a last known elevation of 100 m, a sample resolving
to 100.5 m (delta +0.5) increments the gain by 0.5, while one resolving
to 100.2 m (delta +0.2) leaves both counters at 0. -/
theorem elevation_accumulators_monotone_witness :
    (processStep (havConst 0) stElev100 sampleUp05 none).2.cumulElevationGain = 1/2 ∧
    (processStep (havConst 0) stElev100 sampleUp02 none).2.cumulElevationGain = 0 ∧
    (processStep (havConst 0) stElev100 sampleUp02 none).2.cumulElevationLoss = 0 := by
  have hd5 : elevDiffOf stElev100 sampleUp05 none = 1/2 := by
    norm_num [elevDiffOf, elevOf, getElevationM, cacheFind, stElev100, sampleUp05, resetState]
  have hd2 : elevDiffOf stElev100 sampleUp02 none = 1/5 := by
    norm_num [elevDiffOf, elevOf, getElevationM, cacheFind, stElev100, sampleUp02, resetState]
  have e5 := elevation_accumulators_monotone.1 (havConst 0) stElev100 sampleUp05 none
    ((processStep (havConst 0) stElev100 sampleUp05 none).1)
    ((processStep (havConst 0) stElev100 sampleUp05 none).2)
    (by rw [processStep?_eq_some _ _ _ _ (by norm_num [sampleUp05])])
  have e2 := elevation_accumulators_monotone.1 (havConst 0) stElev100 sampleUp02 none
    ((processStep (havConst 0) stElev100 sampleUp02 none).1)
    ((processStep (havConst 0) stElev100 sampleUp02 none).2)
    (by rw [processStep?_eq_some _ _ _ _ (by norm_num [sampleUp02])])
  have hfd5 : (processStep (havConst 0) stElev100 sampleUp05 none).1.elevation_diff = 1/2 := by
    rw [processStep_fst_elevation_diff, hd5]
  have hfd2 : (processStep (havConst 0) stElev100 sampleUp02 none).1.elevation_diff = 1/5 := by
    rw [processStep_fst_elevation_diff, hd2]
  obtain ⟨hg5, _⟩ := e5.1 (by rw [hfd5]; norm_num)
  obtain ⟨hg2, hl2⟩ := e2.2.2.1 (by rw [hfd2]; norm_num) (by rw [hfd2]; norm_num)
  refine ⟨?_, ?_, ?_⟩
  · rw [hg5, hfd5]
    norm_num [stElev100, resetState]
  · rw [hg2]
    norm_num [stElev100, resetState]
  · rw [hl2]
    norm_num [stElev100, resetState]

theorem processAll?_slope_invariant {hav : ℚ → ℚ → ℚ → ℚ → ℚ}
    (inputs : List (Sample × Option ℚ)) (st : PipelineState) (st' : PipelineState)
    (fvs : List FeatureVector) (h : processAll? hav st inputs = some (st', fvs))
    (hb : |st.smoothedSlope| ≤ 20) :
    |st'.smoothedSlope| ≤ 20 ∧ ∀ fv ∈ fvs, |fv.slope| ≤ 20 := by
  induction inputs generalizing st fvs with
  | nil =>
    rw [processAll?_nil, Option.some_inj] at h
    injection h with h1 h2
    subst h1
    subst h2
    exact ⟨hb, by simp⟩
  | cons p rest ih =>
    obtain ⟨fv₀, st₀, fvs₀, hstep, hrest, hcons⟩ := processAll?_inv h
    obtain ⟨hne, hr⟩ := processStep?_inv hstep
    have hst₀ : st₀ = (processStep hav st p.1 p.2).2 := by rw [← hr]
    have hfv₀ : fv₀ = (processStep hav st p.1 p.2).1 := by rw [← hr]
    have hb₀ : |st₀.smoothedSlope| ≤ 20 := by
      rw [hst₀]
      exact processStep_slope_le hav st p.1 p.2 hb
    have hmid := ih st₀ fvs₀ hrest hb₀
    refine ⟨hmid.1, ?_⟩
    intro fv hfv
    rw [hcons] at hfv
    rcases List.mem_cons.mp hfv with h0 | hmem
    · rw [h0, hfv₀, processStep_fst_slope, ← hst₀]
      exact hb₀
    · exact hmid.2 fv hmem

/-- C2: the raw slope is clamped to [-20, 20] (and is 0 unless the tick
moved more than 1 m at more than 2 km/h) before smoothing, so starting
from the reset value 0 the smoothed slope — and the slope field of every
produced FeatureVector — stays within [-20, 20] after every `process()`
call; an elevation delta of 1000 m over 10 m yields a raw slope of
exactly 20, not 10000. -/
theorem smoothedSlope_bounded :
    (∀ (d m sp rs : ℚ), rawSlopeCalc d m sp = some rs →
      -20 ≤ rs ∧ rs ≤ 20 ∧ (¬ (1 < m ∧ 2 < sp) → rs = 0)) ∧
    rawSlopeCalc 1000 10 36 = some 20 ∧
    (∀ (hav : ℚ → ℚ → ℚ → ℚ → ℚ) (soc0 : ℚ) (inputs : List (Sample × Option ℚ))
      (st' : PipelineState) (fvs : List FeatureVector),
      processAll? hav (resetState soc0) inputs = some (st', fvs) →
        (-20 ≤ st'.smoothedSlope ∧ st'.smoothedSlope ≤ 20) ∧
        ∀ fv ∈ fvs, -20 ≤ fv.slope ∧ fv.slope ≤ 20) := by
  refine ⟨?_, ?_, ?_⟩
  · intro d m sp rs h
    rw [rawSlopeCalc_eq_total, Option.some_inj] at h
    subst h
    exact ⟨(rawSlopeT_bounds d m sp).1, (rawSlopeT_bounds d m sp).2, rawSlopeT_zero d m sp⟩
  · norm_num [rawSlopeCalc, jdiv]
  · intro hav soc0 inputs st' fvs h
    have h0 : |(resetState soc0).smoothedSlope| ≤ 20 := by
      norm_num [resetState]
    obtain ⟨h1, h2⟩ := processAll?_slope_invariant inputs _ st' fvs h h0
    exact ⟨abs_le.mp h1, fun fv hfv => abs_le.mp (h2 fv hfv)⟩

/-- C2 witness: a concrete one-tick run from the reset state keeps the
smoothed slope within [-20, 20]. -/
theorem smoothedSlope_bounded_witness :
    -20 ≤ (processStep (havConst 0) (resetState 80) sampleUp05 none).2.smoothedSlope ∧
    (processStep (havConst 0) (resetState 80) sampleUp05 none).2.smoothedSlope ≤ 20 := by
  have hrun : processAll? (havConst 0) (resetState 80) [(sampleUp05, none)] =
      some ((processStep (havConst 0) (resetState 80) sampleUp05 none).2,
        [(processStep (havConst 0) (resetState 80) sampleUp05 none).1]) := by
    rw [processAll?_cons _ _ _ _ _ (by norm_num [sampleUp05]), processAll?_nil]
    rfl
  exact (smoothedSlope_bounded.2.2 (havConst 0) 80 [(sampleUp05, none)] _ _ hrun).1

/-- C4 (amended): when the previous buffered point exists and both its
coordinates are nonzero (JavaScript truthiness treats a 0 coordinate as
missing), the per-tick distance is the haversine distance capped at
50 m — hence at most 50 m even for two points 10 km apart; when there is
no previous point, or the previous point has a 0 coordinate, the
distance is `v_ms * dt`. -/
theorem distance_capped_haversine (hav : ℚ → ℚ → ℚ → ℚ → ℚ) (st : PipelineState)
    (s : Sample) (lk : Option ℚ) (fv : FeatureVector) (st' : PipelineState)
    (h : processStep? hav st s lk = some (fv, st')) :
    (∀ lp, st.buffer.getLast = some lp → lp.latitude ≠ 0 → lp.longitude ≠ 0 →
      st'.totalDistance = st.totalDistance +
        min (hav lp.latitude lp.longitude s.latitude s.longitude) 50 ∧
      st'.totalDistance - st.totalDistance ≤ 50) ∧
    (st.buffer.getLast = none →
      st'.totalDistance = st.totalDistance + s.speed / 3.6 * dtCalc none s.timestamp) ∧
    (∀ lp, st.buffer.getLast = some lp → lp.latitude = 0 ∨ lp.longitude = 0 →
      st'.totalDistance = st.totalDistance + s.speed / 3.6 * dtCalc (some lp) s.timestamp) := by
  obtain ⟨hne, hr⟩ := processStep?_inv h
  have hst' : st' = (processStep hav st s lk).2 := by rw [← hr]
  rw [hst', processStep_snd_totalDistance]
  refine ⟨?_, ?_, ?_⟩
  · intro lp hlp hlat hlon
    rw [hlp, distanceCalc, if_pos ⟨hlat, hlon⟩]
    refine ⟨rfl, ?_⟩
    have := min_le_right (hav lp.latitude lp.longitude s.latitude s.longitude) 50
    linarith
  · intro hlp
    rw [hlp]
    rfl
  · intro lp hlp hor
    rw [hlp, distanceCalc, if_neg ?_]
    intro hcon
    rcases hor with h0 | h0
    · exact hcon.1 h0
    · exact hcon.2 h0

/-- C4 counterexample: the claim as stated is false when the previous
sample's position is on the equator.  The previous point `(0°, 10°E)` is
a position, the next sample is 10 km away (the haversine stand-in
returns 10000 m), and the claim then demands a per-tick distance of
`min 10000 50 = 50`; but JavaScript's truthiness test
`lastPoint.latitude && lastPoint.longitude` rejects latitude 0, so the
code takes the `v_ms * dt` fallback and adds 0 m. -/
theorem distance_capped_haversine_cex :
    (processStep? (havConst 10000) stEquator sEquator none).map
      (fun r => r.2.totalDistance) = some 0 ∧
    min (havConst 10000 0 10 (9/100) 10) 50 = 50 ∧ (0 : ℚ) ≠ 50 := by
  refine ⟨?_, by norm_num [havConst], by norm_num⟩
  rw [processStep?_eq_some _ _ _ _ (by norm_num [sEquator]), Option.map_some']
  rw [processStep_snd_totalDistance]
  norm_num [stEquator, resetState, ptEquator, sEquator, distanceCalc, DataBuffer.getLast]

/-- C4 witness: with a truthy previous position and a 10 km teleport,
the tick contributes exactly the 50 m cap. -/
theorem distance_capped_haversine_witness :
    (processStep (havConst 10000) stTruthy sAfterTruthy none).2.totalDistance = 50 := by
  have h := distance_capped_haversine (havConst 10000) stTruthy sAfterTruthy none
    ((processStep (havConst 10000) stTruthy sAfterTruthy none).1)
    ((processStep (havConst 10000) stTruthy sAfterTruthy none).2)
    (by rw [processStep?_eq_some _ _ _ _ (by norm_num [sAfterTruthy])])
  have hlp : stTruthy.buffer.getLast = some ptTruthy := by
    norm_num [stTruthy, resetState, DataBuffer.getLast]
  obtain ⟨heq, _⟩ := h.1 ptTruthy hlp (by norm_num [ptTruthy]) (by norm_num [ptTruthy])
  rw [heq]
  norm_num [stTruthy, resetState, ptTruthy, sAfterTruthy, havConst]

theorem foldl_add_nonneg (l : List ℚ) (a : ℚ) (ha : 0 ≤ a) (hl : ∀ x ∈ l, 0 ≤ x) :
    0 ≤ l.foldl (· + ·) a := by
  induction l generalizing a with
  | nil => exact ha
  | cons v vs ih =>
    rw [List.foldl_cons]
    exact ih (a + v) (add_nonneg ha (hl v (List.mem_cons_self _ _)))
      (fun x hx => hl x (List.mem_cons_of_mem _ hx))

theorem getStatsT_stdSq_nonneg (b : DataBuffer) (key : Point → Option ℚ) (w : Nat) :
    0 ≤ (getStatsT b key w).stdSq := by
  simp only [getStatsT]
  split
  · norm_num
  · simp only
    split
    · refine div_nonneg (foldl_add_nonneg _ 0 (le_refl 0) ?_) (Nat.cast_nonneg _)
      intro x hx
      obtain ⟨v, _, hv⟩ := List.mem_map.mp hx
      rw [← hv]
      positivity
    · exact le_refl 0

theorem processStep_stdSq_nonneg (hav : ℚ → ℚ → ℚ → ℚ → ℚ) (st : PipelineState)
    (s : Sample) (lk : Option ℚ) :
    0 ≤ (processStep hav st s lk).1.speed_roll_std_10_sq ∧
    0 ≤ (processStep hav st s lk).1.accel_roll_std_5_sq := by
  constructor <;>
    (simp only [processStep]; exact getStatsT_stdSq_nonneg _ _ _)

/-- C1: for every well-typed sample (`speed ≥ 0`) and every finite
elevation-resolution outcome, `process()` succeeds: no division the
source performs has a zero denominator (the ratio denominators
`speed + 1` are positive even at speed 0), so in the rational model of
finite JS numbers every one of the 36 FeatureVector fields is a finite
number; the two variances under the source's square roots are moreover
nonnegative, so the rolling-std fields are finite too. -/
theorem featureVector_fields_finite (hav : ℚ → ℚ → ℚ → ℚ → ℚ) (st : PipelineState)
    (s : Sample) (lk : Option ℚ) (h : 0 ≤ s.speed) :
    ∃ fv st', processStep? hav st s lk = some (fv, st') ∧
      0 ≤ fv.speed_roll_std_10_sq ∧ 0 ≤ fv.accel_roll_std_5_sq ∧ 0 < s.speed + 1 := by
  have hpos : (0 : ℚ) < s.speed + 1 := by linarith
  refine ⟨(processStep hav st s lk).1, (processStep hav st s lk).2, ?_,
    (processStep_stdSq_nonneg hav st s lk).1,
    (processStep_stdSq_nonneg hav st s lk).2, hpos⟩
  rw [processStep?_eq_some _ _ _ _ hpos.ne']

/-- C1 witness: a concrete tick at speed 0 produces a FeatureVector. -/
theorem featureVector_fields_finite_witness :
    (processStep? (havConst 0) (resetState 80) (constSpeedSample 0 0) none).isSome = true := by
  obtain ⟨fv, st', heq, _⟩ := featureVector_fields_finite (havConst 0) (resetState 80)
    (constSpeedSample 0 0) none (by norm_num [constSpeedSample])
  rw [heq]
  rfl

theorem emaIter_closed (s : ℚ) (n : ℕ) : emaIter s n = s * (1 - (0.85 : ℚ) ^ n) := by
  induction n with
  | zero => simp [emaIter]
  | succ n ih =>
    simp only [emaIter, ema]
    rw [ih]
    ring

theorem emaIter_gap (s : ℚ) (n : ℕ) : s - emaIter s n = s * (0.85 : ℚ) ^ n := by
  rw [emaIter_closed]
  ring

theorem emaIter_gap_abs (s : ℚ) (n : ℕ) : |s - emaIter s n| = |s| * (0.85 : ℚ) ^ n := by
  rw [emaIter_gap, abs_mul, abs_of_pos (pow_pos (by norm_num : (0:ℚ) < 0.85) n)]

/-- C3: the slope smoothing is the EMA update
`smoothed' = 0.15 * raw + 0.85 * smoothed`; iterating it from the reset
value 0 on a constant raw slope `s` gives exactly `s * (1 - 0.85 ^ n)`
after `n` ticks, which approaches `s` monotonically (strictly, for
`s ≠ 0`), never overshoots it, and is within 5 percent of `s` from tick
19 on. -/
theorem ema_convergence (s : ℚ) (n : ℕ) :
    (∀ x p a : ℚ, ema x (some p) a = a * x + (1 - a) * p) ∧
    emaIter s n = s * (1 - (0.85 : ℚ) ^ n) ∧
    |s - emaIter s (n + 1)| ≤ |s - emaIter s n| ∧
    (s ≠ 0 → |s - emaIter s (n + 1)| < |s - emaIter s n|) ∧
    (0 ≤ s → emaIter s n ≤ emaIter s (n + 1) ∧ emaIter s n ≤ s) ∧
    (s ≤ 0 → emaIter s (n + 1) ≤ emaIter s n ∧ s ≤ emaIter s n) ∧
    (19 ≤ n → |s - emaIter s n| ≤ 0.05 * |s|) := by
  have hppos : (0 : ℚ) < (0.85 : ℚ) ^ n := pow_pos (by norm_num) n
  have hstep : ((0.85 : ℚ)) ^ (n + 1) = (0.85 : ℚ) ^ n * 0.85 := pow_succ _ _
  refine ⟨fun x p a => rfl, emaIter_closed s n, ?_, ?_, ?_, ?_, ?_⟩
  · rw [emaIter_gap_abs, emaIter_gap_abs, hstep]
    nlinarith [abs_nonneg s]
  · intro hs
    have habs : 0 < |s| := abs_pos.mpr hs
    rw [emaIter_gap_abs, emaIter_gap_abs, hstep]
    nlinarith
  · intro hs
    constructor
    · have h1 : emaIter s (n + 1) - emaIter s n = s * (0.85 : ℚ) ^ n * 0.15 := by
        rw [emaIter_closed, emaIter_closed, hstep]
        ring
      nlinarith
    · have := emaIter_gap s n
      nlinarith
  · intro hs
    constructor
    · have h1 : emaIter s (n + 1) - emaIter s n = s * (0.85 : ℚ) ^ n * 0.15 := by
        rw [emaIter_closed, emaIter_closed, hstep]
        ring
      nlinarith
    · have := emaIter_gap s n
      nlinarith
  · intro hn
    rw [emaIter_gap_abs]
    have h19 : ((0.85 : ℚ)) ^ n ≤ (0.85 : ℚ) ^ 19 :=
      pow_le_pow_of_le_one (by norm_num) (by norm_num) hn
    have h05 : ((0.85 : ℚ)) ^ 19 ≤ 0.05 := by norm_num
    nlinarith [abs_nonneg s]

/-- C3 witness: for a constant raw slope of 1, tick 19 is within 5
percent of the target. -/
theorem ema_convergence_witness :
    emaIter 1 19 = 1 * (1 - (0.85 : ℚ) ^ 19) ∧
    |1 - emaIter 1 19| ≤ 0.05 * |(1 : ℚ)| :=
  ⟨(ema_convergence 1 19).2.1, (ema_convergence 1 19).2.2.2.2.2.2 (by norm_num)⟩

theorem DataBuffer.add_length_le (b : DataBuffer) (x : Point)
    (hb : b.data.length ≤ b.maxSize) : (b.add x).data.length ≤ b.maxSize := by
  simp only [DataBuffer.add]
  split_ifs with h <;> simp_all

theorem DataBuffer.addAll_data (xs : List Point) (b : DataBuffer)
    (hb : b.data.length ≤ b.maxSize) :
    (b.addAll xs).data = (b.data ++ xs).drop ((b.data ++ xs).length - b.maxSize) := by
  induction xs generalizing b with
  | nil =>
    simp only [DataBuffer.addAll, List.foldl_nil, List.append_nil]
    rw [Nat.sub_eq_zero_of_le hb, List.drop_zero]
  | cons x rest ih =>
    have hstep : b.addAll (x :: rest) = (b.add x).addAll rest := rfl
    rw [hstep, ih (b.add x) (DataBuffer.add_length_le b x hb)]
    simp only [DataBuffer.add]
    split_ifs with h
    · obtain ⟨hd, tl, hdt⟩ := List.exists_cons_of_ne_nil
        (show b.data ++ [x] ≠ [] by simp)
      have hlen : tl.length = b.data.length := by
        have := congrArg List.length hdt
        simp at this
        omega
      have hmax : b.data.length = b.maxSize := by
        simp [List.length_append] at h
        have := hb
        omega
      rw [show b.data ++ x :: rest = (b.data ++ [x]) ++ rest by simp]
      rw [hdt, List.cons_append, List.tail_cons]
      have harith : (hd :: (tl ++ rest)).length - b.maxSize =
          ((tl ++ rest).length - b.maxSize) + 1 := by
        simp only [List.length_cons, List.length_append]
        omega
      rw [harith, List.drop_succ_cons]
    · rw [show (b.data ++ [x]) ++ rest = b.data ++ x :: rest by simp]

/-- C6: starting from the empty capacity-30 buffer, any sequence of
`add()` calls leaves at most 30 entries, and after more than 30
insertions the buffer holds exactly the 30 most recent points in
insertion order (the oldest evicted first). -/
theorem buffer_capacity_bound (xs : List Point) :
    (DataBuffer.addAll ⟨30, []⟩ xs).data.length ≤ 30 ∧
    (30 < xs.length →
      (DataBuffer.addAll ⟨30, []⟩ xs).data = xs.drop (xs.length - 30) ∧
      (DataBuffer.addAll ⟨30, []⟩ xs).data.length = 30) := by
  have hd := DataBuffer.addAll_data xs ⟨30, []⟩ (by simp)
  simp only [List.nil_append] at hd
  constructor
  · rw [hd, List.length_drop]
    omega
  · intro h
    refine ⟨hd, ?_⟩
    rw [hd, List.length_drop]
    omega

/-- C6 witness: 31 insertions leave the last 30 points, in order. -/
theorem buffer_capacity_bound_witness :
    30 < ((List.range 31).map mkPt).length ∧
    (DataBuffer.addAll ⟨30, []⟩ ((List.range 31).map mkPt)).data =
      ((List.range 31).map mkPt).drop (((List.range 31).map mkPt).length - 30) := by
  have hlen : ((List.range 31).map mkPt).length = 31 := by simp
  refine ⟨by rw [hlen]; norm_num, ?_⟩
  exact ((buffer_capacity_bound ((List.range 31).map mkPt)).2
    (by rw [hlen]; norm_num)).1

theorem le_foldl_max (vs : List ℚ) (a : ℚ) : a ≤ vs.foldl max a := by
  induction vs generalizing a with
  | nil => exact le_refl a
  | cons v vs ih => exact le_trans (le_max_left a v) (ih (max a v))

theorem foldl_max_mem (vs : List ℚ) (a : ℚ) : vs.foldl max a = a ∨ vs.foldl max a ∈ vs := by
  induction vs generalizing a with
  | nil => exact Or.inl rfl
  | cons v vs ih =>
    rw [List.foldl_cons]
    rcases ih (max a v) with h | h
    · rcases max_choice a v with hm | hm
      · exact Or.inl (h.trans hm)
      · exact Or.inr (List.mem_cons.mpr (Or.inl (h.trans hm)))
    · exact Or.inr (List.mem_cons_of_mem _ h)

theorem le_foldl_max_of_mem (vs : List ℚ) (a x : ℚ) (hx : x ∈ vs) : x ≤ vs.foldl max a := by
  induction vs generalizing a with
  | nil => cases hx
  | cons v vs ih =>
    rw [List.foldl_cons]
    rcases List.mem_cons.mp hx with h | h
    · subst h
      exact le_trans (le_max_right a x) (le_foldl_max vs (max a x))
    · exact ih (max a v) h

theorem foldl_min_le (vs : List ℚ) (a : ℚ) : vs.foldl min a ≤ a := by
  induction vs generalizing a with
  | nil => exact le_refl a
  | cons v vs ih => exact le_trans (ih (min a v)) (min_le_left a v)

theorem foldl_min_mem (vs : List ℚ) (a : ℚ) : vs.foldl min a = a ∨ vs.foldl min a ∈ vs := by
  induction vs generalizing a with
  | nil => exact Or.inl rfl
  | cons v vs ih =>
    rw [List.foldl_cons]
    rcases ih (min a v) with h | h
    · rcases min_choice a v with hm | hm
      · exact Or.inl (h.trans hm)
      · exact Or.inr (List.mem_cons.mpr (Or.inl (h.trans hm)))
    · exact Or.inr (List.mem_cons_of_mem _ h)

theorem foldl_min_le_of_mem (vs : List ℚ) (a x : ℚ) (hx : x ∈ vs) : vs.foldl min a ≤ x := by
  induction vs generalizing a with
  | nil => cases hx
  | cons v vs ih =>
    rw [List.foldl_cons]
    rcases List.mem_cons.mp hx with h | h
    · subst h
      exact le_trans (foldl_min_le vs (min a x)) (min_le_right a x)
    · exact ih (min a v) h

theorem listMax_mem (l : List ℚ) (hl : l ≠ []) : listMax l ∈ l := by
  cases l with
  | nil => exact absurd rfl hl
  | cons v vs =>
    rcases foldl_max_mem vs v with h | h
    · rw [listMax, h]
      exact List.mem_cons_self _ _
    · exact List.mem_cons_of_mem _ (by rw [listMax]; exact h)

theorem le_listMax (l : List ℚ) (x : ℚ) (hx : x ∈ l) : x ≤ listMax l := by
  cases l with
  | nil => cases hx
  | cons v vs =>
    rw [listMax]
    rcases List.mem_cons.mp hx with h | h
    · subst h
      exact le_foldl_max vs x
    · exact le_foldl_max_of_mem vs v x h

theorem listMin_mem (l : List ℚ) (hl : l ≠ []) : listMin l ∈ l := by
  cases l with
  | nil => exact absurd rfl hl
  | cons v vs =>
    rcases foldl_min_mem vs v with h | h
    · rw [listMin, h]
      exact List.mem_cons_self _ _
    · exact List.mem_cons_of_mem _ (by rw [listMin]; exact h)

theorem listMin_le (l : List ℚ) (x : ℚ) (hx : x ∈ l) : listMin l ≤ x := by
  cases l with
  | nil => cases hx
  | cons v vs =>
    rw [listMin]
    rcases List.mem_cons.mp hx with h | h
    · subst h
      exact foldl_min_le vs x
    · exact foldl_min_le_of_mem vs v x h

theorem getStatsT_eq (b : DataBuffer) (key : Point → Option ℚ) (w : Nat) (hw : 1 ≤ w) :
    getStatsT b key w =
      if (windowValues b key w).length = 0 then ⟨0, 0, 0, 0⟩
      else
        ⟨(windowValues b key w).foldl (· + ·) 0 / ((windowValues b key w).length : ℚ),
          if 1 < (windowValues b key w).length then
            ((windowValues b key w).map (fun v =>
              (v - (windowValues b key w).foldl (· + ·) 0 /
                ((windowValues b key w).length : ℚ)) ^ 2)).foldl (· + ·) 0 /
              ((windowValues b key w).length : ℚ)
          else 0,
          listMax (windowValues b key w), listMin (windowValues b key w)⟩ := by
  simp only [getStatsT, windowValues, jsSlice, if_neg (show ¬ w = 0 by omega)]

/-- C7 (amended to window sizes `w ≥ 1`): `windowStats` always returns a
value; it aggregates the field values present among the `w` most recent
entries (all, if fewer are present); when that set is empty the result
is all-zero, and otherwise the mean satisfies `mean * N = sum`, the
(squared) std is the population variance — dividing by `N`, not `N-1` —
and max/min are attained upper/lower bounds of the set.  (For `w = 0`
the source's `slice(-0)` takes the whole buffer instead of no entries —
see the counterexample.) -/
theorem windowStats_correct (b : DataBuffer) (key : Point → Option ℚ) (w : Nat)
    (hw : 1 ≤ w) :
    ∃ ws, b.getStats key w = some ws ∧
      (windowValues b key w = [] → ws = ⟨0, 0, 0, 0⟩) ∧
      (windowValues b key w ≠ [] →
        ws.mean * ((windowValues b key w).length : ℚ) = (windowValues b key w).sum ∧
        ws.stdSq * ((windowValues b key w).length : ℚ) =
          ((windowValues b key w).map (fun v => (v - ws.mean) ^ 2)).sum ∧
        ws.max ∈ windowValues b key w ∧
        (∀ v ∈ windowValues b key w, v ≤ ws.max) ∧
        ws.min ∈ windowValues b key w ∧
        (∀ v ∈ windowValues b key w, ws.min ≤ v)) := by
  refine ⟨getStatsT b key w, getStats_eq_total b key w, ?_, ?_⟩
  · intro hv
    rw [getStatsT_eq b key w hw, if_pos (by rw [hv]; rfl)]
  · intro hv
    have hlen0 : (windowValues b key w).length ≠ 0 :=
      fun h => hv (List.length_eq_zero.mp h)
    have hlenq : ((windowValues b key w).length : ℚ) ≠ 0 := Nat.cast_ne_zero.mpr hlen0
    rw [getStatsT_eq b key w hw, if_neg hlen0]
    refine ⟨?_, ?_, listMax_mem _ hv, fun v hvm => le_listMax _ v hvm,
      listMin_mem _ hv, fun v hvm => listMin_le _ v hvm⟩
    · dsimp only
      simp only [← List.sum_eq_foldl]
      exact div_mul_cancel₀ _ hlenq
    · by_cases h1 : 1 < (windowValues b key w).length
      · rw [if_pos h1]
        dsimp only
        simp only [← List.sum_eq_foldl]
        exact div_mul_cancel₀ _ hlenq
      · rw [if_neg h1]
        dsimp only
        have hl1 : (windowValues b key w).length = 1 := by omega
        obtain ⟨v, hv1⟩ := List.length_eq_one.mp hl1
        rw [hv1]
        norm_num

/-- C7 counterexample: the claim as stated is false at window size 0.
It demands "the most recent 0 entries", i.e. the empty set and all-zero
stats; but `this.data.slice(-0)` is `slice(0)` — the whole array — so on
a buffer holding one entry with speed 7 the code returns mean 7, not the
all-zero stats. -/
theorem windowStats_correct_cex :
    DataBuffer.getStats ⟨30, [ptSpeed7]⟩ (fun p => some p.speed) 0 = some ⟨7, 0, 7, 7⟩ ∧
    (⟨7, 0, 7, 7⟩ : WindowStats) ≠ ⟨0, 0, 0, 0⟩ := by
  constructor
  · rw [getStats_eq_total]
    norm_num [getStatsT, jsSlice, listMax, listMin, ptSpeed7,
      List.filterMap_cons, List.filterMap_nil]
  · intro h
    have := congrArg WindowStats.mean h
    norm_num at this

/-- C7 witness: window size 10 on the empty buffer returns the all-zero
stats. -/
theorem windowStats_correct_witness :
    DataBuffer.getStats ⟨30, []⟩ (fun p => some p.speed) 10 = some ⟨0, 0, 0, 0⟩ := by
  obtain ⟨ws, heq, hzero, _⟩ :=
    windowStats_correct ⟨30, []⟩ (fun p => some p.speed) 10 (by norm_num)
  rw [heq, hzero (by simp [windowValues])]

theorem jsOrZero_eq_getD (x : Option ℚ) : jsOrZero x = x.getD 0 := by
  cases x with
  | none => rfl
  | some v =>
    by_cases hv : v = 0 <;> simp [jsOrZero, hv]

/-- C8: elevation resolution is total and never propagates an external
failure — the result is a plain value (elevation plus source tag), never
an exception.  On a coordinate-bucket cache hit it returns the cached
value without fetching; while a lookup is in flight it reuses the last
known elevation (else the sample's altitude, else 0) and issues no
second request; otherwise it issues the lookup (whose 3 s abort/HTTP
failure is the `lookup = none` outcome) and on success uses the API
value, on failure falls back to the sample's on-device altitude, else
the last known elevation, else 0 — with the matching source tag. -/
theorem elevation_resolution_total (cache : List ((ℤ × ℤ) × ℚ)) (pending : Bool)
    (lastElev : Option ℚ) (lat lon : ℚ) (gpsAlt : Option ℚ) (lookup : Option ℚ) :
    (∀ v, cacheFind cache (cacheKey lat lon) = some v →
      getElevationM cache pending lastElev lat lon gpsAlt lookup =
        ⟨v, ElevSource.cache, false, cache, pending⟩) ∧
    (cacheFind cache (cacheKey lat lon) = none → pending = true →
      (getElevationM cache pending lastElev lat lon gpsAlt lookup).issuedLookup = false ∧
      (getElevationM cache pending lastElev lat lon gpsAlt lookup).elevation =
        lastElev.getD (gpsAlt.getD 0)) ∧
    (cacheFind cache (cacheKey lat lon) = none → pending = false →
      ∀ v, lookup = some v →
        (getElevationM cache pending lastElev lat lon gpsAlt lookup).elevation = v ∧
        (getElevationM cache pending lastElev lat lon gpsAlt lookup).source =
          ElevSource.api ∧
        (getElevationM cache pending lastElev lat lon gpsAlt lookup).issuedLookup =
          true) ∧
    (cacheFind cache (cacheKey lat lon) = none → pending = false → lookup = none →
      (getElevationM cache pending lastElev lat lon gpsAlt lookup).issuedLookup = true ∧
      (getElevationM cache pending lastElev lat lon gpsAlt lookup).elevation =
        gpsAlt.getD (lastElev.getD 0) ∧
      (gpsAlt ≠ none →
        (getElevationM cache pending lastElev lat lon gpsAlt lookup).source =
          ElevSource.gps) ∧
      (gpsAlt = none → lastElev ≠ none →
        (getElevationM cache pending lastElev lat lon gpsAlt lookup).source =
          ElevSource.last) ∧
      (gpsAlt = none → lastElev = none →
        (getElevationM cache pending lastElev lat lon gpsAlt lookup).source =
          ElevSource.default ∧
        (getElevationM cache pending lastElev lat lon gpsAlt lookup).elevation = 0)) := by
  refine ⟨?_, ?_, ?_, ?_⟩
  · intro v hv
    simp [getElevationM, hv]
  · intro hcf hp
    subst hp
    cases lastElev with
    | none => simp [getElevationM, hcf, jsOrZero_eq_getD]
    | some e => simp [getElevationM, hcf]
  · intro hcf hp v hv
    subst hp
    subst hv
    simp [getElevationM, hcf]
  · intro hcf hp hl
    subst hp
    subst hl
    cases gpsAlt with
    | some g => simp [getElevationM, hcf]
    | none =>
      cases lastElev with
      | some e => simp [getElevationM, hcf]
      | none => simp [getElevationM, hcf]

/-- C8 witness: with an empty cache, no pending lookup, no last known
elevation and a failing lookup, a sample altitude of 55 m resolves to
elevation 55 with source tag `gps` — the spec's fallback-chain
scenario. -/
theorem elevation_resolution_total_witness :
    (getElevationM [] false none 45 7 (some 55) none).elevation = 55 ∧
    (getElevationM [] false none 45 7 (some 55) none).source = ElevSource.gps := by
  have h := (elevation_resolution_total [] false none 45 7 (some 55) none).2.2.2
    (by simp [cacheFind]) rfl rfl
  exact ⟨by rw [h.2.1]; rfl, h.2.2.1 (by simp)⟩
